import Mathlib

/-!
# Shallow embedding of the Netflix revenue pipeline (src/revenue.py)

This file embeds the ingestion-reconciliation-forecast-insight pipeline of
`src/revenue.py` and settles the frozen claims about it.

Modelling conventions:
* pandas float values are modelled by `ℚ`;
* a pandas object column is a `List Cell`, where a cell is either numeric
  or a raw character string;
* `pd.merge(..., on='Year')` (inner join, the default) is modelled by
  `mergeOn`: for each left row, in left order, one output row per matching
  right row, in right order — pandas' documented inner-join semantics;
* errors raised by pandas (length-mismatch on column assignment, failed
  `astype(float)`, `idxmax` of an empty series) are modelled with `Except`;
* straight-line code that cannot raise is modelled by total functions.
-/

namespace NetflixRevenue

/-! ### Value cells and the currency cleaner (src/revenue.py, lines 42-48) -/

/-- A cell of a metric column: either already numeric or a raw string. -/
inductive Cell where
  | num (q : ℚ)
  | str (s : List Char)
deriving DecidableEq

/-- The numeric value of a decimal digit character, if it is one. -/
def digitVal (c : Char) : Option ℕ :=
  if '0' ≤ c ∧ c ≤ '9' then some (c.toNat - '0'.toNat) else none

/-- Value of a big-endian digit list. -/
def digitsVal (ds : List ℕ) : ℕ := ds.foldl (fun a d => 10 * a + d) 0

/-- Option-valued map over a list, failing when any element fails. -/
def mapOpt {α β : Type} (f : α → Option β) : List α → Option (List β)
  | [] => some []
  | a :: l =>
    match f a, mapOpt f l with
    | some b, some bs => some (b :: bs)
    | _, _ => none

/-- Parse a non-empty all-digit character list as a natural number.
(`parseNatChars [] = some 0`; emptiness is guarded by the callers.) -/
def parseNatChars (s : List Char) : Option ℕ :=
  (mapOpt digitVal s).map digitsVal

/-- Split a character list at the first occurrence of `c`, or `none`. -/
def splitAtCh (c : Char) : List Char → Option (List Char × List Char)
  | [] => none
  | a :: l =>
    if a = c then some ([], l)
    else (splitAtCh c l).map (fun p => (a :: p.1, p.2))

/-- Parse an unsigned decimal literal, as Python `float` accepts it on the
cleaned cells of this pipeline: digits with an optional single decimal
point, at least one digit overall. -/
def parseUnsigned (s : List Char) : Option ℚ :=
  match splitAtCh '.' s with
  | none => if s = [] then none else (parseNatChars s).map (fun n => (n : ℚ))
  | some (ip, fp) =>
    if ip = [] ∧ fp = [] then none
    else if '.' ∈ fp then none
    else
      match parseNatChars ip, parseNatChars fp with
      | some i, some fr => some ((i : ℚ) + (fr : ℚ) / 10 ^ fp.length)
      | _, _ => none

/-- Parse a signed decimal literal (model of `float(...)` coercion). -/
def parseFloat : List Char → Option ℚ
  | [] => none
  | a :: rest =>
    if a = '-' then (parseUnsigned rest).map (fun q => -q)
    else if a = '+' then parseUnsigned rest
    else parseUnsigned (a :: rest)

/-- `col.replace('[\$,]', '', regex=True)` on one string cell: delete every
occurrence of the two characters in the class, nothing else. -/
def stripCurrency (s : List Char) : List Char :=
  s.filter (fun c => !(c == '$' || c == ','))

/-- Error raised when a cell cannot be coerced to float; it carries the
offending cell (the `astype(float)` message names the offending value). -/
inductive CleanErr where
  | malformed (c : Cell)
deriving DecidableEq

/-- The numeric value of one cell after currency stripping, if coercible:
numeric cells pass through, string cells are stripped of `$` and `,` and
then parsed as a float literal. -/
def cellVal (c : Cell) : Option ℚ :=
  match c with
  | .num q => some q
  | .str s => parseFloat (stripCurrency s)

/-- Coercion of one cell, with the failure carrying the cell. -/
def coerceCell (c : Cell) : Except CleanErr ℚ :=
  match cellVal c with
  | some q => .ok q
  | none => .error (.malformed c)

/-- `clean_currency` (src/revenue.py line 42-43):
`col.replace('[\$,]', '', regex=True).astype(float)`.  The whole column
either coerces or the first bad cell aborts the conversion. -/
def clean_currency : List Cell → Except CleanErr (List ℚ)
  | [] => .ok []
  | c :: col =>
    match coerceCell c with
    | .error e => .error e
    | .ok q =>
      match clean_currency col with
      | .error e => .error e
      | .ok qs => .ok (q :: qs)

/-! ### Sheet loading and column renaming (src/revenue.py, lines 30-39) -/

/-- A raw sheet as parsed from the workbook: its column names and rows. -/
structure RawSheet where
  cols : List String
  rows : List (List Cell)
deriving DecidableEq

/-- pandas raises `ValueError` ("Length mismatch") when a column list of
the wrong length is assigned; the error carries actual/expected counts. -/
inductive LoadErr where
  | lengthMismatch (actual expected : ℕ)
deriving DecidableEq

/-- `df.columns = names` (src/revenue.py lines 36-39): succeeds only when
`names` has exactly as many entries as the sheet has columns. -/
def set_columns (t : RawSheet) (names : List String) : Except LoadErr RawSheet :=
  if t.cols.length = names.length then .ok ⟨names, t.rows⟩
  else .error (.lengthMismatch t.cols.length names.length)

/-! ### The reconciler: merge chain (src/revenue.py, lines 51-53) -/

/-- The key column (`Year`) of a keyed table. -/
def keysOf {α : Type} (t : List (ℤ × α)) : List ℤ := t.map Prod.fst

/-- `left.merge(right, on='Year')`: pandas inner join.  For each left row,
in left order, one output row per matching right row, in right order. -/
def mergeOn {α β : Type} (l : List (ℤ × α)) (r : List (ℤ × β)) : List (ℤ × α × β) :=
  l.flatMap (fun p => (r.filter (fun q => q.1 == p.1)).map (fun q => (p.1, p.2, q.2)))

/-- One row of the merged dataframe `df`. -/
structure Row where
  year : ℤ
  revenue : ℚ
  subscribers : ℚ
  contentSpend : ℚ
  netIncome : ℚ
deriving DecidableEq

/-- `df = revenue_df.merge(subs_df, on='Year').merge(content_df, on='Year')
.merge(income_df, on='Year')` (src/revenue.py lines 51-53). -/
def reconcile (rev subs cont inc : List (ℤ × ℚ)) : List Row :=
  (mergeOn (mergeOn (mergeOn rev subs) cont) inc).map
    (fun p => ⟨p.1, p.2.1.1.1, p.2.1.1.2, p.2.1.2, p.2.2⟩)

/-- The `Year` column of the merged dataframe. -/
def rowYears (l : List Row) : List ℤ := l.map Row.year

/-! ### Time-series construction and the Prophet fit (lines 64-74) -/

/-- A calendar date (year, month, day). -/
structure Date where
  y : ℤ
  m : ℕ
  d : ℕ
deriving DecidableEq

/-- `prophet_df` (src/revenue.py lines 64-67): `ds = to_datetime(Year,
format='%Y')` — January 1 of each year — and `y = Revenue`.  The builder
is straight-line code: it performs no minimum-length check. -/
def prophet_input (df : List Row) : List (Date × ℚ) :=
  df.map (fun r => (⟨r.year, 1, 1⟩, r.revenue))

/-- Failure of the external forecasting fit. -/
inductive FitErr where
  | forecastFit
deriving DecidableEq

/-- Modelled from the spec: the external forecasting service (Prophet,
`model.fit`, line 74) is outside src; per the spec's service contract its
fit fails when the series has fewer than 2 observations, and that failure
propagates (the spec's ForecastFitError). -/
def prophet_fit (pts : List (Date × ℚ)) : Except FitErr (List (Date × ℚ)) :=
  if pts.length < 2 then .error .forecastFit else .ok pts

/-- Lines 64-74 composed: build the series, then hand it to the fit. -/
def fit_stage (df : List Row) : Except FitErr (List (Date × ℚ)) :=
  prophet_fit (prophet_input df)

/-! ### Forecast invocation (src/revenue.py, lines 70-71) -/

/-- `periods = forecast_years * 365` (line 71). -/
def horizon_days (forecast_years : ℤ) : ℤ := forecast_years * 365

/-- The invocation path: the horizon in days is handed straight to the
forecasting service; no validation is applied between the slider and the
service call.  `svc` stands for the external service. -/
def invoke_forecast {α : Type} (svc : ℤ → α) (forecast_years : ℤ) : α :=
  svc (horizon_days forecast_years)

/-- Lower bound of the horizon slider (line 70). -/
def slider_min : ℤ := 1

/-- Upper bound of the horizon slider (line 70). -/
def slider_max : ℤ := 10

/-! ### Forecast points and insight extraction (lines 86-108) -/

/-- One row of `forecast_out`: `ds, yhat, yhat_lower, yhat_upper`. -/
structure FP where
  ds : Date
  yhat : ℚ
  yhat_lower : ℚ
  yhat_upper : ℚ
deriving DecidableEq

/-- `future_forecast = forecast_out[forecast_out['Year'] > latest_year]`
(line 93), with `Year = ds.dt.year` (line 89). -/
def future_points (f : List FP) (latest : ℤ) : List FP :=
  f.filter (fun p => decide (latest < p.ds.y))

/-- The `Year` column of a forecast frame. -/
def yearsOfPoints (l : List FP) : List ℤ := l.map (fun p => p.ds.y)

/-- Insert into an ascending list (used to model groupby's sorted keys). -/
def insertAsc (x : ℤ) : List ℤ → List ℤ
  | [] => [x]
  | y :: ys => if x ≤ y then x :: y :: ys else y :: insertAsc x ys

/-- Insertion sort, ascending (groupby sorts its group keys). -/
def sortAsc (l : List ℤ) : List ℤ := l.foldr insertAsc []

/-- Arithmetic mean of a list of rationals (callers guard non-emptiness). -/
def mean (l : List ℚ) : ℚ := l.sum / l.length

/-- `Series.round()` rounds half to even (numpy semantics). -/
def roundHalfEven (q : ℚ) : ℤ :=
  if q - q.floor < 1 / 2 then q.floor
  else if 1 / 2 < q - q.floor then q.floor + 1
  else if q.floor % 2 = 0 then q.floor else q.floor + 1

/-- The `yhat` values of the points falling in year `y`. -/
def yhatsInYear (l : List FP) (y : ℤ) : List ℚ :=
  (l.filter (fun p => decide (p.ds.y = y))).map FP.yhat

/-- The aggregated value for one group key. -/
def annualValue (l : List FP) (y : ℤ) : ℤ := roundHalfEven (mean (yhatsInYear l y))

/-- `annual_pred = future_forecast.groupby('Year')['yhat'].mean().round()`
(line 96): a series indexed by the distinct future years in ascending
order, valued at the rounded mean of each year's `yhat`s. -/
def annual_pred (f : List FP) (latest : ℤ) : List (ℤ × ℤ) :=
  (sortAsc (yearsOfPoints (future_points f latest)).dedup).map
    (fun y => (y, annualValue (future_points f latest) y))

/-- Lines 99-101: `if next_year in annual_pred` — the next-year prediction
is looked up and simply absent (`none`) when the key is missing. -/
def nextYearPrediction (f : List FP) (latest : ℤ) : Option ℤ :=
  (annual_pred f latest).lookup (latest + 1)

/-- pandas raises `ValueError` for `idxmax`/`idxmin` of an empty series. -/
inductive InsightErr where
  | emptySeries
deriving DecidableEq

/-- First index achieving the running maximum (pandas `idxmax` keeps the
first occurrence on ties). -/
def idxmaxGo (k : ℤ) (v : ℤ) : List (ℤ × ℤ) → ℤ
  | [] => k
  | p :: rest => if v < p.2 then idxmaxGo p.1 p.2 rest else idxmaxGo k v rest

/-- `annual_pred.idxmax()` (line 104): errors on an empty series. -/
def idxmax : List (ℤ × ℤ) → Except InsightErr ℤ
  | [] => .error .emptySeries
  | p :: rest => .ok (idxmaxGo p.1 p.2 rest)

/-- First index achieving the running minimum. -/
def idxminGo (k : ℤ) (v : ℤ) : List (ℤ × ℤ) → ℤ
  | [] => k
  | p :: rest => if p.2 < v then idxminGo p.1 p.2 rest else idxminGo k v rest

/-- `annual_pred.idxmin()` (line 105): errors on an empty series. -/
def idxmin : List (ℤ × ℤ) → Except InsightErr ℤ
  | [] => .error .emptySeries
  | p :: rest => .ok (idxminGo p.1 p.2 rest)

/-- The insight block (lines 98-108): the guarded next-year prediction and
the unguarded `idxmax`/`idxmin` calls; an empty `annual_pred` makes the
whole block fail. -/
def insights (f : List FP) (latest : ℤ) : Except InsightErr (Option ℤ × ℤ × ℤ) :=
  match idxmax (annual_pred f latest), idxmin (annual_pred f latest) with
  | .ok mx, .ok mn => .ok (nextYearPrediction f latest, mx, mn)
  | .error e, _ => .error e
  | .ok _, .error e => .error e

/-! ### The CSV artifact (src/revenue.py, lines 117-119)

Modelled from the spec: the artifact encoding itself is produced by
`DataFrame.to_csv`, a library call outside src; per the spec it is a
four-column, header-included, field-delimited text format whose
floating-point formatting precision is fixed with enough decimal digits
to avoid lossy rounding.  We model a row as its list of textual fields
and print values with a fixed six decimal digits, exact on values that
are multiples of 10⁻⁶. -/

/-- Print a natural number in decimal (big-endian digit characters). -/
def printNat (n : ℕ) : List Char :=
  if n = 0 then ['0'] else ((Nat.digits 10 n).map Nat.digitChar).reverse

/-- Left-pad with zero characters to width `w`. -/
def padZeros (w : ℕ) (s : List Char) : List Char :=
  List.replicate (w - s.length) '0' ++ s

/-- Print a rational with six fixed decimal digits (exact when the value
is a multiple of 10⁻⁶, the precision the spec fixes for the artifact). -/
def printVal (v : ℚ) : List Char :=
  if v < 0 then '-' :: printNat ((v * 10 ^ 6).num.natAbs / 10 ^ 6) ++
      '.' :: padZeros 6 (printNat ((v * 10 ^ 6).num.natAbs % 10 ^ 6))
  else printNat ((v * 10 ^ 6).num.natAbs / 10 ^ 6) ++
      '.' :: padZeros 6 (printNat ((v * 10 ^ 6).num.natAbs % 10 ^ 6))

/-- Print a date in ISO form `YYYY-MM-DD`. -/
def printDate (dt : Date) : List Char :=
  padZeros 4 (printNat dt.y.toNat) ++
    '-' :: (padZeros 2 (printNat dt.m) ++ '-' :: padZeros 2 (printNat dt.d))

/-- Parse an ISO date field back into a `Date`. -/
def parseDate (s : List Char) : Option Date :=
  match splitAtCh '-' s with
  | none => none
  | some (ys, rest) =>
    match splitAtCh '-' rest with
    | none => none
    | some (ms, ds) =>
      match parseNatChars ys, parseNatChars ms, parseNatChars ds with
      | some a, some b, some c => some ⟨(a : ℤ), b, c⟩
      | _, _, _ => none

/-- The header row of the artifact. -/
def csvHeader : List (List Char) :=
  [['d', 's'],
   ['y', 'h', 'a', 't'],
   ['y', 'h', 'a', 't', '_', 'l', 'o', 'w', 'e', 'r'],
   ['y', 'h', 'a', 't', '_', 'u', 'p', 'p', 'e', 'r']]

/-- One data row of the artifact: the four printed fields of a point. -/
def printRow (p : FP) : List (List Char) :=
  [printDate p.ds, printVal p.yhat, printVal p.yhat_lower, printVal p.yhat_upper]

/-- `forecast_out.to_csv(index=False)` (lines 117-118): header row then
one row per point, four fields each. -/
def to_csv (f : List FP) : List (List (List Char)) :=
  csvHeader :: f.map printRow

/-- Re-parse one data row under the four-column schema. -/
def parseRow (r : List (List Char)) : Option FP :=
  match r with
  | [s0, s1, s2, s3] =>
    match parseDate s0, parseFloat s1, parseFloat s2, parseFloat s3 with
    | some dt, some a, some b, some c => some ⟨dt, a, b, c⟩
    | _, _, _, _ => none
  | _ => none

/-- Re-parse the whole artifact under the documented schema. -/
def parse_csv (rows : List (List (List Char))) : Option (List FP) :=
  match rows with
  | [] => none
  | hdr :: body => if hdr = csvHeader then mapOpt parseRow body else none

/-! ## Helper lemmas about the merge chain -/

theorem length_filter_key {α : Type} (r : List (ℤ × α)) (k : ℤ) :
    (r.filter (fun q => q.1 == k)).length = List.count k (keysOf r) := by
  rw [keysOf, List.count, List.countP_map, ← List.countP_eq_length_filter]
  rfl

theorem keysOf_mergeOn_cons {α β : Type} (p : ℤ × α) (l : List (ℤ × α))
    (r : List (ℤ × β)) :
    keysOf (mergeOn (p :: l) r) =
      List.replicate (List.count p.1 (keysOf r)) p.1 ++ keysOf (mergeOn l r) := by
  rw [mergeOn, List.flatMap_cons, ← mergeOn]
  rw [keysOf, List.map_append, List.map_map]
  rw [show ((Prod.fst ∘ fun q : ℤ × β => (p.1, p.2, q.2)) = fun _ => p.1) from rfl]
  rw [List.map_const', length_filter_key]
  rfl

theorem count_keysOf_mergeOn {α β : Type} (l : List (ℤ × α)) (r : List (ℤ × β))
    (k : ℤ) :
    List.count k (keysOf (mergeOn l r)) =
      List.count k (keysOf l) * List.count k (keysOf r) := by
  induction l with
  | nil => simp [mergeOn, keysOf]
  | cons p l ih =>
    rw [keysOf_mergeOn_cons, List.count_append, ih]
    rw [show keysOf (p :: l) = p.1 :: keysOf l from rfl, List.count_cons]
    rw [List.count_replicate]
    by_cases h : p.1 = k
    · subst h
      simp
      ring
    · have h' : ¬ k = p.1 := fun e => h e.symm
      simp [h, h']

theorem rowYears_reconcile (rev subs cont inc : List (ℤ × ℚ)) :
    rowYears (reconcile rev subs cont inc) =
      keysOf (mergeOn (mergeOn (mergeOn rev subs) cont) inc) := by
  rw [rowYears, reconcile, List.map_map, keysOf]
  rfl

theorem count_rowYears_reconcile (rev subs cont inc : List (ℤ × ℚ)) (k : ℤ) :
    List.count k (rowYears (reconcile rev subs cont inc)) =
      List.count k (keysOf rev) * List.count k (keysOf subs) *
        List.count k (keysOf cont) * List.count k (keysOf inc) := by
  rw [rowYears_reconcile, count_keysOf_mergeOn, count_keysOf_mergeOn,
    count_keysOf_mergeOn]

theorem keysOf_mergeOn_of_nodup {α β : Type} (l : List (ℤ × α))
    (r : List (ℤ × β)) (h : (keysOf r).Nodup) :
    keysOf (mergeOn l r) = (keysOf l).filter (fun k => decide (k ∈ keysOf r)) := by
  induction l with
  | nil => rfl
  | cons p l ih =>
    rw [keysOf_mergeOn_cons, ih]
    rw [show keysOf (p :: l) = p.1 :: keysOf l from rfl, List.filter_cons]
    by_cases m : p.1 ∈ keysOf r
    · rw [List.count_eq_one_of_mem h m]
      simp [m]
    · rw [List.count_eq_zero_of_not_mem m]
      simp [m]

/-! ## Claim C1 — duplicate keys and the join -/

/-- Claim C1 counterexample.  The claim says a duplicated PeriodKey within
one input table makes the Reconciler fail with DuplicateKeyError and
produce no joined output.  The code (src/revenue.py lines 51-53) has no
such check: with PeriodKey 2020 duplicated in the Subscribers table, the
merge chain succeeds and returns two fanned-out rows for 2020. -/
theorem c1_counterexample :
    rowYears (reconcile [(2020, 1)] [(2020, 3), (2020, 4)] [(2020, 5)]
      [(2020, 6)]) = [2020, 2020] := by
  rfl

/-- Claim C1, amended: the merge chain detects no duplicate keys and
raises no error; instead the inner join fans out, with the number of
output rows carrying PeriodKey `k` equal to the product of the
multiplicities of `k` in the four input tables. -/
theorem c1_join_fans_out (rev subs cont inc : List (ℤ × ℚ)) (k : ℤ) :
    List.count k (rowYears (reconcile rev subs cont inc)) =
      List.count k (keysOf rev) * List.count k (keysOf subs) *
        List.count k (keysOf cont) * List.count k (keysOf inc) :=
  count_rowYears_reconcile rev subs cont inc k

/-! ## Claim C2 — output keys are the intersection -/

/-- Claim C2: for cleaned tables with unique keys, a PeriodKey appears in
the reconciled output exactly once when it is present in all four input
tables and not at all otherwise — the output key set is the intersection
of the four input key sets, periods missing from any table are dropped,
and no key is duplicated. -/
theorem c2_keys_intersection (rev subs cont inc : List (ℤ × ℚ))
    (h1 : (keysOf rev).Nodup) (h2 : (keysOf subs).Nodup)
    (h3 : (keysOf cont).Nodup) (h4 : (keysOf inc).Nodup) (k : ℤ) :
    List.count k (rowYears (reconcile rev subs cont inc)) =
      if k ∈ keysOf rev ∧ k ∈ keysOf subs ∧ k ∈ keysOf cont ∧ k ∈ keysOf inc
      then 1 else 0 := by
  rw [count_rowYears_reconcile]
  by_cases m1 : k ∈ keysOf rev <;> by_cases m2 : k ∈ keysOf subs <;>
    by_cases m3 : k ∈ keysOf cont <;> by_cases m4 : k ∈ keysOf inc <;>
    first
    | (rw [List.count_eq_one_of_mem h1 m1, List.count_eq_one_of_mem h2 m2,
        List.count_eq_one_of_mem h3 m3, List.count_eq_one_of_mem h4 m4]
       simp [m1, m2, m3, m4])
    | simp [List.count_eq_zero_of_not_mem, m1, m2, m3, m4]

/-- Witness for C2, at the spec's concrete instance: key sets
2019-2021, 2019-2020, 2020-2021 and 2019-2021 reconcile to exactly
the single key 2020. -/
theorem c2_witness :
    List.count 2020 (rowYears (reconcile [(2019, 1), (2020, 2), (2021, 3)]
      [(2019, 4), (2020, 5)] [(2020, 6), (2021, 7)]
      [(2019, 8), (2020, 9), (2021, 10)])) = 1 ∧
    List.count 2019 (rowYears (reconcile [(2019, 1), (2020, 2), (2021, 3)]
      [(2019, 4), (2020, 5)] [(2020, 6), (2021, 7)]
      [(2019, 8), (2020, 9), (2021, 10)])) = 0 ∧
    List.count 2021 (rowYears (reconcile [(2019, 1), (2020, 2), (2021, 3)]
      [(2019, 4), (2020, 5)] [(2020, 6), (2021, 7)]
      [(2019, 8), (2020, 9), (2021, 10)])) = 0 := by
  refine ⟨?_, ?_, ?_⟩
  · rw [c2_keys_intersection _ _ _ _ (by decide) (by decide) (by decide)
      (by decide) 2020]
    decide
  · rw [c2_keys_intersection _ _ _ _ (by decide) (by decide) (by decide)
      (by decide) 2019]
    decide
  · rw [c2_keys_intersection _ _ _ _ (by decide) (by decide) (by decide)
      (by decide) 2021]
    decide

/-! ## Claim C3 — result ordering -/

/-- Claim C3 counterexample.  The claim says the Reconciler's output is
ordered by ascending PeriodKey regardless of input row order.  In the
code the inner merge preserves the left (Revenue) table's row order: with
the Revenue table listed newest-first the output is descending, and
reordering the Revenue rows changes the output sequence. -/
theorem c3_counterexample :
    rowYears (reconcile [(2021, 1), (2020, 2)] [(2020, 3), (2021, 4)]
        [(2020, 5), (2021, 6)] [(2020, 7), (2021, 8)]) = [2021, 2020] ∧
    ¬ List.Sorted (· ≤ ·) (rowYears (reconcile [(2021, 1), (2020, 2)]
        [(2020, 3), (2021, 4)] [(2020, 5), (2021, 6)] [(2020, 7), (2021, 8)])) ∧
    rowYears (reconcile [(2021, 1), (2020, 2)] [(2020, 3), (2021, 4)]
        [(2020, 5), (2021, 6)] [(2020, 7), (2021, 8)]) ≠
      rowYears (reconcile [(2020, 2), (2021, 1)] [(2020, 3), (2021, 4)]
        [(2020, 5), (2021, 6)] [(2020, 7), (2021, 8)]) := by
  refine ⟨by rfl, ?_, by decide⟩
  rw [show rowYears (reconcile [(2021, 1), (2020, 2)] [(2020, 3), (2021, 4)]
    [(2020, 5), (2021, 6)] [(2020, 7), (2021, 8)]) = [2021, 2020] from rfl]
  decide

/-- Claim C3, amended: the output key sequence equals the Revenue (left)
table's key sequence filtered to the keys present in the other three
tables (the other tables having unique keys); the order is therefore
determined by the Revenue table's row order, not by ascending PeriodKey. -/
theorem c3_left_table_order (rev subs cont inc : List (ℤ × ℚ))
    (h2 : (keysOf subs).Nodup) (h3 : (keysOf cont).Nodup)
    (h4 : (keysOf inc).Nodup) :
    rowYears (reconcile rev subs cont inc) =
      (keysOf rev).filter (fun k =>
        decide (k ∈ keysOf subs) && decide (k ∈ keysOf cont) &&
          decide (k ∈ keysOf inc)) := by
  rw [rowYears_reconcile, keysOf_mergeOn_of_nodup _ _ h4,
    keysOf_mergeOn_of_nodup _ _ h3, keysOf_mergeOn_of_nodup _ _ h2,
    List.filter_filter, List.filter_filter]
  apply List.filter_congr
  intro a _
  by_cases m2 : a ∈ keysOf subs <;> by_cases m3 : a ∈ keysOf cont <;>
    by_cases m4 : a ∈ keysOf inc <;> simp [m2, m3, m4]

/-- Witness for C3's amended statement at a concrete input: the output
follows the Revenue table's descending order. -/
theorem c3_witness :
    rowYears (reconcile [(2021, 1), (2020, 2), (2019, 9)] [(2020, 3), (2021, 4)]
        [(2020, 5), (2021, 6)] [(2020, 7), (2021, 8)]) =
      (keysOf [((2021 : ℤ), (1 : ℚ)), (2020, 2), (2019, 9)]).filter (fun k =>
        decide (k ∈ keysOf [((2020 : ℤ), (3 : ℚ)), (2021, 4)]) &&
          decide (k ∈ keysOf [((2020 : ℤ), (5 : ℚ)), (2021, 6)]) &&
          decide (k ∈ keysOf [((2020 : ℤ), (7 : ℚ)), (2021, 8)])) :=
  c3_left_table_order _ _ _ _ (by decide) (by decide) (by decide)

/-! ## Claim C4 — the currency normalizer -/

/-- Claim C4: cleaning a column removes exactly the characters `$` and `,`
from string cells before numeric parsing (that is what `cellVal` does to a
string cell); when every cell coerces the result is the cell values in the
same length and order, and when any cell fails to coerce the whole column
fails with an error naming an offending cell — no per-row skip. -/
theorem c4_clean_currency_contract (col : List Cell) :
    ((∀ c ∈ col, (cellVal c).isSome) →
        clean_currency col = .ok (col.filterMap cellVal) ∧
          (col.filterMap cellVal).length = col.length) ∧
    ((∃ c ∈ col, cellVal c = none) →
        ∃ c ∈ col, cellVal c = none ∧
          clean_currency col = .error (.malformed c)) := by
  induction col with
  | nil =>
    constructor
    · intro _
      exact ⟨rfl, rfl⟩
    · rintro ⟨c, hc, _⟩
      cases hc
  | cons c col ih =>
    constructor
    · intro h
      obtain ⟨q, hq⟩ := Option.isSome_iff_exists.mp (h c (List.mem_cons_self c col))
      have hrest := ih.1 (fun c' hc' => h c' (List.mem_cons_of_mem c hc'))
      constructor
      · simp only [clean_currency, coerceCell, hq, hrest.1]
        simp [List.filterMap_cons, hq]
      · simp only [List.filterMap_cons, hq, List.length_cons]
        simp [hrest.2]
    · rintro ⟨c0, hc0, hnone⟩
      rcases List.mem_cons.mp hc0 with rfl | hmem
      · refine ⟨c0, List.mem_cons_self _ _, hnone, ?_⟩
        simp only [clean_currency, coerceCell, hnone]
      · by_cases hc : cellVal c = none
        · refine ⟨c, List.mem_cons_self _ _, hc, ?_⟩
          simp only [clean_currency, coerceCell, hc]
        · obtain ⟨q, hq⟩ := Option.ne_none_iff_exists'.mp hc
          obtain ⟨c', hmem', hnone', herr⟩ := ih.2 ⟨c0, hmem, hnone⟩
          refine ⟨c', List.mem_cons_of_mem c hmem', hnone', ?_⟩
          simp only [clean_currency, coerceCell, hq, herr]

/-- Witness for C4 at a concrete column: a numeric cell and the string
cell `$1,234.5` both coerce, the latter to 1234.5 after `$` and `,` are
removed. -/
theorem c4_witness :
    (∀ c ∈ [Cell.num 2,
        Cell.str ('$' :: '1' :: ',' :: '2' :: '3' :: '4' :: '.' :: '5' :: [])],
      (cellVal c).isSome) ∧
    clean_currency [Cell.num 2,
        Cell.str ('$' :: '1' :: ',' :: '2' :: '3' :: '4' :: '.' :: '5' :: [])] =
      .ok ([Cell.num 2,
        Cell.str ('$' :: '1' :: ',' :: '2' :: '3' :: '4' :: '.' :: '5' :: [])].filterMap
          cellVal) :=
  ⟨by decide, ((c4_clean_currency_contract _).1 (by decide)).1⟩

/-! ## Claim C5 — sheet loading and column renaming -/

/-- Claim C5 counterexample.  The claim says a table with more than two
columns still loads successfully with its first two columns mapped.  In
the code (src/revenue.py lines 36-39) the whole column list is assigned
at once, and pandas rejects a length mismatch: a three-column sheet
fails. -/
theorem c5_counterexample :
    set_columns ⟨["Year", "Revenue ($)", "Extra"], []⟩ ["Year", "Revenue ($)"] =
      .error (.lengthMismatch 3 2) := rfl

/-- Claim C5, amended: renaming assigns the canonical two-name list and
succeeds exactly when the sheet has exactly two columns (ignoring the
original header text); a sheet with fewer or more than two columns fails
with a length-mismatch error. -/
theorem c5_rename_requires_two (cols : List String) (rows : List (List Cell))
    (metric : String) :
    (cols.length = 2 →
      set_columns ⟨cols, rows⟩ ["Year", metric] = .ok ⟨["Year", metric], rows⟩) ∧
    (cols.length ≠ 2 →
      set_columns ⟨cols, rows⟩ ["Year", metric] =
        .error (.lengthMismatch cols.length 2)) := by
  constructor <;> intro h <;> simp [set_columns, h]

/-- Witness for C5's amended statement: a two-column sheet is renamed
regardless of its original headers; a one-column sheet fails. -/
theorem c5_witness :
    set_columns ⟨["Netflix Annual Revenue", "Unnamed: 1"], []⟩
        ["Year", "Revenue ($)"] = .ok ⟨["Year", "Revenue ($)"], []⟩ ∧
    set_columns ⟨["OnlyColumn"], []⟩ ["Year", "Revenue ($)"] =
      .error (.lengthMismatch 1 2) :=
  ⟨(c5_rename_requires_two _ _ _).1 (by decide),
   (c5_rename_requires_two _ _ _).2 (by decide)⟩

/-! ## Claim C6 — no minimum-history check -/

/-- Claim C6 counterexample.  The claim says the Time-Series Builder
fails with InsufficientHistoryError before the forecasting service is
invoked when fewer than 2 points are produced.  The builder
(src/revenue.py lines 64-67) is straight-line code with no length check:
on a single reconciled row it successfully produces a one-point series,
and the failure only arises inside the external fit. -/
theorem c6_counterexample :
    prophet_input [⟨2020, 5, 6, 7, 8⟩] = [(⟨2020, 1, 1⟩, 5)] ∧
    fit_stage [⟨2020, 5, 6, 7, 8⟩] = .error .forecastFit :=
  ⟨rfl, rfl⟩

/-- Claim C6, amended: the pipeline has no minimum-history check of its
own — the builder produces one point per reconciled row unconditionally,
and an under-length series is passed to the external forecasting fit,
which is what fails (the spec's ForecastFitError), not an
InsufficientHistoryError raised before the invocation. -/
theorem c6_no_min_history_check (df : List Row) (h : df.length < 2) :
    (prophet_input df).length = df.length ∧
    fit_stage df = .error .forecastFit := by
  have hlen : (prophet_input df).length = df.length := by
    simp [prophet_input]
  refine ⟨hlen, ?_⟩
  simp [fit_stage, prophet_fit, hlen, h]

/-- Witness for C6's amended statement on a one-row reconciled dataset. -/
theorem c6_witness :
    ([⟨2020, 5, 6, 7, 8⟩] : List Row).length < 2 ∧
    fit_stage [⟨2020, 5, 6, 7, 8⟩] = .error .forecastFit :=
  ⟨by decide, (c6_no_min_history_check _ (by decide)).2⟩

/-! ## Claim C7 — horizon handling -/

/-- Claim C7 counterexample.  The claim says an out-of-bounds horizon
(such as 0 or 11) is rejected with InvalidHorizonError before the
forecasting service is called.  The code (src/revenue.py lines 70-71) has
no such check — the bound lives only in the slider widget — and the
invocation path hands `h * 365` straight to the service: for horizon 0
the service is called with 0 days, for 11 with 4015 days. -/
theorem c7_counterexample :
    invoke_forecast (fun p => p) 0 = 0 ∧
    invoke_forecast (fun p => p) 11 = 4015 := ⟨rfl, rfl⟩

/-- Claim C7, amended: the horizon is constrained to the slider's bounds
1-10 by the widget itself, not by any InvalidHorizonError check; for
every slider value the horizon handed to the forecasting service is
exactly `h * 365` days, hence between 365 and 3650. -/
theorem c7_slider_horizon (h : ℤ) (h1 : slider_min ≤ h) (h2 : h ≤ slider_max) :
    invoke_forecast (fun p => p) h = h * 365 ∧
    365 ≤ invoke_forecast (fun p => p) h ∧
    invoke_forecast (fun p => p) h ≤ 3650 := by
  rw [slider_min] at h1
  rw [slider_max] at h2
  refine ⟨rfl, ?_, ?_⟩ <;> simp only [invoke_forecast, horizon_days] <;> omega

/-- Witness for C7's amended statement at the default slider value 5. -/
theorem c7_witness :
    slider_min ≤ 5 ∧ (5 : ℤ) ≤ slider_max ∧
    invoke_forecast (fun p => p) 5 = 5 * 365 :=
  ⟨by decide, by decide, (c7_slider_horizon 5 (by decide) (by decide)).1⟩

/-! ## Helper lemmas about the insight extractor -/

theorem mem_insertAsc (x a : ℤ) (l : List ℤ) :
    a ∈ insertAsc x l ↔ a = x ∨ a ∈ l := by
  induction l with
  | nil => simp [insertAsc]
  | cons y ys ih =>
    rw [insertAsc]
    split
    · simp
    · simp [ih]
      tauto

theorem mem_sortAsc (a : ℤ) (l : List ℤ) : a ∈ sortAsc l ↔ a ∈ l := by
  induction l with
  | nil => simp [sortAsc]
  | cons x xs ih =>
    show a ∈ insertAsc x (sortAsc xs) ↔ _
    rw [mem_insertAsc, ih]
    simp

theorem lookup_map_keyfun (g : ℤ → ℤ) (keys : List ℤ) (y : ℤ) :
    (keys.map (fun k => (k, g k))).lookup y =
      if y ∈ keys then some (g y) else none := by
  induction keys with
  | nil => rfl
  | cons k ks ih =>
    rw [List.map_cons, List.lookup_cons]
    by_cases h : y = k
    · subst h
      simp
    · have hb : (y == k) = false := by simp [h]
      simp [hb, h, ih]

theorem yhatsInYear_future (f : List FP) (latest y : ℤ) (hy : latest < y) :
    yhatsInYear (future_points f latest) y = yhatsInYear f y := by
  rw [yhatsInYear, yhatsInYear, future_points, List.filter_filter]
  congr 1
  apply List.filter_congr
  intro p _
  by_cases hp : p.ds.y = y
  · simp [hp, hy]
  · simp [hp]

theorem lookup_annual_pred (f : List FP) (latest y : ℤ) :
    (annual_pred f latest).lookup y =
      if latest < y ∧ ∃ p ∈ f, p.ds.y = y
      then some (annualValue f y) else none := by
  rw [annual_pred, lookup_map_keyfun]
  have hmem : y ∈ sortAsc (yearsOfPoints (future_points f latest)).dedup ↔
      (latest < y ∧ ∃ p ∈ f, p.ds.y = y) := by
    rw [mem_sortAsc, List.mem_dedup, yearsOfPoints, List.mem_map]
    constructor
    · rintro ⟨p, hp, rfl⟩
      rw [future_points, List.mem_filter] at hp
      exact ⟨by simpa using hp.2, p, hp.1, rfl⟩
    · rintro ⟨hy, p, hp, hpy⟩
      refine ⟨p, ?_, hpy⟩
      rw [future_points, List.mem_filter]
      exact ⟨hp, by simp [hpy, hy]⟩
  by_cases hc : latest < y ∧ ∃ p ∈ f, p.ds.y = y
  · rw [if_pos (hmem.mpr hc), if_pos hc, annualValue, annualValue,
      yhatsInYear_future f latest y hc.1]
  · rw [if_neg (fun m => hc (hmem.mp m)), if_neg hc]

/-! ## Claim C8 — annual insight aggregation -/

/-- Claim C8: the annual prediction series contains a year exactly when
it is strictly after the latest known year and the forecast has points in
it, its value is the half-even-rounded arithmetic mean of that year's
daily `yhat` values, back-fitted historical years never contribute, and
the next-year prediction is simply absent — no error — when the key
`latest + 1` has no forecast points. -/
theorem c8_annual_insight (f : List FP) (latest y : ℤ) :
    (∀ v : ℤ, (annual_pred f latest).lookup y = some v ↔
        latest < y ∧ (∃ p ∈ f, p.ds.y = y) ∧
          v = roundHalfEven (mean (yhatsInYear f y))) ∧
    (nextYearPrediction f latest = none ↔ ¬ ∃ p ∈ f, p.ds.y = latest + 1) := by
  constructor
  · intro v
    rw [lookup_annual_pred]
    by_cases hc : latest < y ∧ ∃ p ∈ f, p.ds.y = y
    · rw [if_pos hc]
      constructor
      · intro he
        exact ⟨hc.1, hc.2, (Option.some.inj he).symm⟩
      · rintro ⟨_, _, rfl⟩
        rfl
    · rw [if_neg hc]
      constructor
      · intro he
        cases he
      · rintro ⟨h1, h2, _⟩
        exact absurd ⟨h1, h2⟩ hc
  · rw [nextYearPrediction, lookup_annual_pred]
    by_cases hc : ∃ p ∈ f, p.ds.y = latest + 1
    · rw [if_pos ⟨by omega, hc⟩]
      simp [hc]
    · rw [if_neg (fun m => hc m.2)]
      simp [hc]

/-- Witness for C8: with latest known year 2024 and forecast points of
100 in 2024 (back-fitted, excluded) and 10 and 20 on two 2025 days, the
annual insight for 2025 is the rounded mean 15. -/
theorem c8_witness :
    (annual_pred [⟨⟨2024, 6, 1⟩, 100, 0, 0⟩, ⟨⟨2025, 1, 1⟩, 10, 0, 0⟩,
        ⟨⟨2025, 1, 2⟩, 20, 0, 0⟩] 2024).lookup 2025 = some 15 :=
  ((c8_annual_insight _ 2024 2025).1 15).mpr
    ⟨by decide, ⟨⟨⟨2025, 1, 1⟩, 10, 0, 0⟩, by decide, rfl⟩, by
      have h1 : yhatsInYear [⟨⟨2024, 6, 1⟩, 100, 0, 0⟩, ⟨⟨2025, 1, 1⟩, 10, 0, 0⟩,
          ⟨⟨2025, 1, 2⟩, 20, 0, 0⟩] 2025 = [10, 20] := by simp [yhatsInYear]
      have h2 : mean [10, 20] = 15 := by
        rw [mean]
        norm_num
      have hf : (15 : ℚ).floor = 15 := by
        rw [Rat.floor_def']
        norm_num
      rw [h1, h2, roundHalfEven, hf]
      norm_num⟩

/-! ## Claim C10 — empty future aggregation errors -/

/-- Claim C10: when no forecast point falls strictly after the latest
known year, the future-year frame is empty, so `annual_pred` is the empty
series and the unguarded `idxmax` call (src/revenue.py line 104) fails —
the insight block errors out instead of omitting the max/min insights,
even though the forecast itself succeeded. -/
theorem c10_empty_future_errors (f : List FP) (latest : ℤ)
    (h : ∀ p ∈ f, p.ds.y ≤ latest) :
    insights f latest = .error .emptySeries := by
  have hfut : future_points f latest = [] := by
    rw [future_points, List.filter_eq_nil_iff]
    intro p hp
    simp only [decide_eq_true_eq, not_lt]
    exact h p hp
  have hap : annual_pred f latest = [] := by
    rw [annual_pred, hfut]
    rfl
  simp only [insights, hap]
  rfl

/-- Witness for C10: a two-point forecast lying entirely within the
latest known year 2024 (as happens with a 365-day horizon starting from
January 1 of the leap year 2024) makes the insight block fail. -/
theorem c10_witness :
    insights [⟨⟨2024, 1, 1⟩, 1, 0, 2⟩, ⟨⟨2024, 12, 31⟩, 3, 2, 4⟩] 2024 =
      .error .emptySeries :=
  c10_empty_future_errors _ 2024 (by decide)

/-! ## Helper lemmas for the CSV artifact round trip -/

theorem digitVal_digitChar {d : ℕ} (h : d < 10) :
    digitVal (Nat.digitChar d) = some d := by
  interval_cases d <;> decide

theorem digitChar_is_digit {d : ℕ} (h : d < 10) :
    '0' ≤ Nat.digitChar d ∧ Nat.digitChar d ≤ '9' := by
  interval_cases d <;> decide

theorem mapOpt_digitVal_digitChar (ds : List ℕ) (h : ∀ d ∈ ds, d < 10) :
    mapOpt digitVal (ds.map Nat.digitChar) = some ds := by
  induction ds with
  | nil => rfl
  | cons d ds ih =>
    simp only [List.map_cons, mapOpt,
      digitVal_digitChar (h d (List.mem_cons_self d ds)),
      ih (fun d' hd' => h d' (List.mem_cons_of_mem d hd'))]

theorem digitsVal_reverse_eq_ofDigits (ds : List ℕ) :
    digitsVal ds.reverse = Nat.ofDigits 10 ds := by
  induction ds with
  | nil => rfl
  | cons d ds ih =>
    rw [List.reverse_cons, digitsVal, List.foldl_append, ← digitsVal, ih,
      Nat.ofDigits_cons]
    show 10 * Nat.ofDigits 10 ds + d = d + 10 * Nat.ofDigits 10 ds
    omega

theorem parseNatChars_printNat (n : ℕ) : parseNatChars (printNat n) = some n := by
  by_cases h : n = 0
  · subst h
    rfl
  · rw [printNat, if_neg h, parseNatChars, ← List.map_reverse,
      mapOpt_digitVal_digitChar _ (fun d hd => Nat.digits_lt_base (by norm_num)
        (List.mem_reverse.mp hd))]
    rw [Option.map_some', digitsVal_reverse_eq_ofDigits, Nat.ofDigits_digits]

theorem parseNatChars_padZeros (w : ℕ) (s : List Char) (n : ℕ)
    (h : parseNatChars s = some n) : parseNatChars (padZeros w s) = some n := by
  rw [padZeros]
  generalize w - s.length = k
  induction k with
  | zero => simpa using h
  | succ k ih =>
    rw [List.replicate_succ, List.cons_append, parseNatChars]
    rw [parseNatChars] at ih
    cases hm : mapOpt digitVal (List.replicate k '0' ++ s) with
    | none =>
      rw [hm] at ih
      simp at ih
    | some ds =>
      rw [hm] at ih
      simp only [Option.map_some'] at ih
      have h0 : digitVal '0' = some 0 := by decide
      simp only [mapOpt, h0, hm, Option.map_some']
      exact ih

theorem printNat_ne_nil (n : ℕ) : printNat n ≠ [] := by
  by_cases h : n = 0
  · simp [printNat, h]
  · rw [printNat, if_neg h]
    simp [Nat.digits_ne_nil_iff_ne_zero, h]

theorem printNat_digits (n : ℕ) : ∀ c ∈ printNat n, '0' ≤ c ∧ c ≤ '9' := by
  intro c hc
  by_cases h : n = 0
  · subst h
    rw [printNat] at hc
    simp at hc
    subst hc
    decide
  · rw [printNat, if_neg h, List.mem_reverse, List.mem_map] at hc
    obtain ⟨d, hd, rfl⟩ := hc
    exact digitChar_is_digit (Nat.digits_lt_base (by norm_num) hd)

theorem padZeros_digits (w : ℕ) (s : List Char)
    (hs : ∀ c ∈ s, '0' ≤ c ∧ c ≤ '9') :
    ∀ c ∈ padZeros w s, '0' ≤ c ∧ c ≤ '9' := by
  intro c hc
  rw [padZeros, List.mem_append] at hc
  rcases hc with hc | hc
  · rw [List.eq_of_mem_replicate hc]
    decide
  · exact hs c hc

theorem not_mem_of_all_digits {c : Char} {s : List Char}
    (hs : ∀ x ∈ s, '0' ≤ x ∧ x ≤ '9') (hc : ¬ ('0' ≤ c ∧ c ≤ '9')) : c ∉ s :=
  fun m => hc (hs c m)

theorem padZeros_length (w : ℕ) (s : List Char) (h : s.length ≤ w) :
    (padZeros w s).length = w := by
  rw [padZeros, List.length_append, List.length_replicate]
  omega

theorem printNat_length_le (n w : ℕ) (hn : n < 10 ^ w) (hw : 1 ≤ w) :
    (printNat n).length ≤ w := by
  by_cases h : n = 0
  · subst h
    simpa [printNat] using hw
  · rw [printNat, if_neg h]
    simp only [List.length_reverse, List.length_map]
    rw [Nat.digits_len 10 n (by norm_num) h]
    have := Nat.log_lt_of_lt_pow h hn
    omega

theorem splitAtCh_append (c : Char) (l1 l2 : List Char) (h : c ∉ l1) :
    splitAtCh c (l1 ++ c :: l2) = some (l1, l2) := by
  induction l1 with
  | nil => simp [splitAtCh]
  | cons a l ih =>
    rw [List.cons_append, splitAtCh,
      if_neg (fun e => h (List.mem_cons.mpr (Or.inl e.symm))),
      ih (fun m => h (List.mem_cons_of_mem a m))]
    rfl

theorem parseUnsigned_print_core (n : ℕ) :
    parseUnsigned (printNat (n / 10 ^ 6) ++
        '.' :: padZeros 6 (printNat (n % 10 ^ 6))) =
      some ((n : ℚ) / 10 ^ 6) := by
  have hq := parseNatChars_printNat (n / 10 ^ 6)
  have hr : parseNatChars (padZeros 6 (printNat (n % 10 ^ 6))) =
      some (n % 10 ^ 6) :=
    parseNatChars_padZeros _ _ _ (parseNatChars_printNat _)
  have hrlen : (printNat (n % 10 ^ 6)).length ≤ 6 :=
    printNat_length_le _ 6 (Nat.mod_lt _ (by norm_num)) (by norm_num)
  have hlen : (padZeros 6 (printNat (n % 10 ^ 6))).length = 6 :=
    padZeros_length _ _ hrlen
  have hnodot : '.' ∉ printNat (n / 10 ^ 6) :=
    not_mem_of_all_digits (printNat_digits _) (by decide)
  have hnodot2 : '.' ∉ padZeros 6 (printNat (n % 10 ^ 6)) :=
    not_mem_of_all_digits (padZeros_digits _ _ (printNat_digits _)) (by decide)
  have hsplit := splitAtCh_append '.' (printNat (n / 10 ^ 6))
    (padZeros 6 (printNat (n % 10 ^ 6))) hnodot
  simp only [parseUnsigned, hsplit]
  rw [if_neg (fun hand => printNat_ne_nil (n / 10 ^ 6) hand.1), if_neg hnodot2,
    hq, hr]
  simp only [hlen]
  congr 1
  have h10 : ((10 : ℚ) ^ 6) ≠ 0 := by norm_num
  field_simp
  norm_cast
  omega

theorem parseFloat_printVal (v : ℚ) (hden : (v * 10 ^ 6).den = 1) :
    parseFloat (printVal v) = some v := by
  have hv : (((v * 10 ^ 6).num : ℚ)) = v * 10 ^ 6 :=
    (Rat.den_eq_one_iff _).mp hden
  have hv' : v = (((v * 10 ^ 6).num : ℚ)) / 10 ^ 6 := by
    rw [eq_div_iff (by norm_num : ((10 : ℚ) ^ 6) ≠ 0), hv]
  by_cases hneg : v < 0
  · have hmneg : (v * 10 ^ 6).num < 0 :=
      Rat.num_neg.mpr (mul_neg_of_neg_of_pos hneg (by norm_num))
    have habs : (((v * 10 ^ 6).num.natAbs : ℤ)) = -(v * 10 ^ 6).num := by
      omega
    rw [printVal, if_pos hneg, List.cons_append]
    simp only [parseFloat, if_true]
    rw [parseUnsigned_print_core, Option.map_some']
    congr 1
    have hq : (((v * 10 ^ 6).num.natAbs : ℚ)) = -(v * 10 ^ 6) := by
      rw [Int.cast_natAbs, abs_of_neg (by exact_mod_cast hmneg), Int.cast_neg, hv]
    rw [hq, neg_div, neg_neg, mul_div_cancel_right₀ _
      (by norm_num : ((10 : ℚ) ^ 6) ≠ 0)]
  · have hmpos : 0 ≤ (v * 10 ^ 6).num :=
      Rat.num_nonneg.mpr (mul_nonneg (not_lt.mp hneg) (by norm_num))
    have habs : (((v * 10 ^ 6).num.natAbs : ℤ)) = (v * 10 ^ 6).num := by
      omega
    rw [printVal, if_neg hneg]
    cases hpn : printNat ((v * 10 ^ 6).num.natAbs / 10 ^ 6) with
    | nil => exact absurd hpn (printNat_ne_nil _)
    | cons c cs =>
      have hcdig : '0' ≤ c ∧ c ≤ '9' :=
        printNat_digits _ c (by rw [hpn]; exact List.mem_cons_self _ _)
      have hcd : ¬ c = '-' := fun e => by
        subst e
        exact absurd hcdig (by decide)
      have hcp : ¬ c = '+' := fun e => by
        subst e
        exact absurd hcdig (by decide)
      rw [List.cons_append]
      simp only [parseFloat]
      rw [if_neg hcd, if_neg hcp, ← List.cons_append, ← hpn,
        parseUnsigned_print_core]
      congr 1
      have hq : (((v * 10 ^ 6).num.natAbs : ℚ)) = v * 10 ^ 6 := by
        rw [Int.cast_natAbs, abs_of_nonneg (by exact_mod_cast hmpos), hv]
      rw [hq, mul_div_cancel_right₀ _ (by norm_num : ((10 : ℚ) ^ 6) ≠ 0)]

theorem parseDate_printDate (dt : Date) (hy : 0 ≤ dt.y) :
    parseDate (printDate dt) = some dt := by
  have hy4 : parseNatChars (padZeros 4 (printNat dt.y.toNat)) = some dt.y.toNat :=
    parseNatChars_padZeros _ _ _ (parseNatChars_printNat _)
  have hm2 : parseNatChars (padZeros 2 (printNat dt.m)) = some dt.m :=
    parseNatChars_padZeros _ _ _ (parseNatChars_printNat _)
  have hd2 : parseNatChars (padZeros 2 (printNat dt.d)) = some dt.d :=
    parseNatChars_padZeros _ _ _ (parseNatChars_printNat _)
  have hnd1 : '-' ∉ padZeros 4 (printNat dt.y.toNat) :=
    not_mem_of_all_digits (padZeros_digits _ _ (printNat_digits _)) (by decide)
  have hnd2 : '-' ∉ padZeros 2 (printNat dt.m) :=
    not_mem_of_all_digits (padZeros_digits _ _ (printNat_digits _)) (by decide)
  have hsplit1 := splitAtCh_append '-' (padZeros 4 (printNat dt.y.toNat))
    (padZeros 2 (printNat dt.m) ++ '-' :: padZeros 2 (printNat dt.d)) hnd1
  have hsplit2 := splitAtCh_append '-' (padZeros 2 (printNat dt.m))
    (padZeros 2 (printNat dt.d)) hnd2
  rw [printDate]
  simp only [parseDate, hsplit1, hsplit2, hy4, hm2, hd2]
  rw [show ((dt.y.toNat : ℤ)) = dt.y from Int.toNat_of_nonneg hy]

theorem parseRow_printRow (p : FP) (hy : 0 ≤ p.ds.y)
    (h1 : (p.yhat * 10 ^ 6).den = 1) (h2 : (p.yhat_lower * 10 ^ 6).den = 1)
    (h3 : (p.yhat_upper * 10 ^ 6).den = 1) :
    parseRow (printRow p) = some p := by
  rw [printRow]
  simp only [parseRow, parseDate_printDate p.ds hy, parseFloat_printVal _ h1,
    parseFloat_printVal _ h2, parseFloat_printVal _ h3]

theorem mapOpt_parseRow_printRow (f : List FP)
    (h : ∀ p ∈ f, 0 ≤ p.ds.y ∧ (p.yhat * 10 ^ 6).den = 1 ∧
      (p.yhat_lower * 10 ^ 6).den = 1 ∧ (p.yhat_upper * 10 ^ 6).den = 1) :
    mapOpt parseRow (f.map printRow) = some f := by
  induction f with
  | nil => rfl
  | cons p fs ih =>
    have hp := h p (List.mem_cons_self p fs)
    simp only [List.map_cons, mapOpt,
      parseRow_printRow p hp.1 hp.2.1 hp.2.2.1 hp.2.2.2,
      ih (fun q hq => h q (List.mem_cons_of_mem p hq))]

/-! ## Claim C9 — artifact round trip -/

/-- Claim C9: exporting a ForecastPoint sequence through the four-column,
header-included artifact and re-parsing it under the same schema
reconstructs the sequence exactly, for points whose timestamps have
non-negative years and whose values are exact at the artifact's fixed
six-decimal-digit formatting precision (the spec's fixed-precision
round-trip tolerance). -/
theorem c9_csv_round_trip (f : List FP)
    (h : ∀ p ∈ f, 0 ≤ p.ds.y ∧ (p.yhat * 10 ^ 6).den = 1 ∧
      (p.yhat_lower * 10 ^ 6).den = 1 ∧ (p.yhat_upper * 10 ^ 6).den = 1) :
    parse_csv (to_csv f) = some f := by
  rw [to_csv]
  simp only [parse_csv, if_true]
  exact mapOpt_parseRow_printRow f h

/-- Witness for C9: a one-point forecast with fractional bounds
round-trips through the artifact unchanged. -/
theorem c9_witness :
    parse_csv (to_csv [⟨⟨2025, 1, 1⟩, 1 / 2, -3 / 2, 5⟩]) =
      some [⟨⟨2025, 1, 1⟩, 1 / 2, -3 / 2, 5⟩] :=
  c9_csv_round_trip _ (by
    intro p hp
    rw [List.mem_singleton] at hp
    subst hp
    refine ⟨by decide, ?_, ?_, ?_⟩
    · rw [show (1 / 2 : ℚ) * 10 ^ 6 = ((500000 : ℤ) : ℚ) from by norm_num]
      exact Rat.den_intCast _
    · rw [show (-3 / 2 : ℚ) * 10 ^ 6 = ((-1500000 : ℤ) : ℚ) from by norm_num]
      exact Rat.den_intCast _
    · rw [show (5 : ℚ) * 10 ^ 6 = ((5000000 : ℤ) : ℚ) from by norm_num]
      exact Rat.den_intCast _)

end NetflixRevenue
